import Mathlib

/-!
Shallow embedding of `scripts/export_model.py`, the one-shot pipeline that
exports the BLIP-base captioning model to ONNX: configuration constants,
the synthetic trace inputs, the two sub-graph wrapper modules, the two
`torch.onnx.export` invocations, the tokenizer-artifact step with its
`vocab.txt` fallback copy, and the sequential control flow of the script.
-/

namespace ExportModel

/-- Tensor shapes are modelled as lists of dimension sizes. -/
abbrev Shape := List Nat

/-- Line 26: `MODEL_ID = "Salesforce/blip-image-captioning-base"`. -/
def MODEL_ID : String := "Salesforce/blip-image-captioning-base"

/-- Line 27: `OUTPUT_DIR = Path("models")`. -/
def OUTPUT_DIR : String := "models"

/-- Line 76: `seq_len = 10`. -/
def seq_len : Nat := 10

/-- Line 47: `dummy_image = torch.randn(1, 3, 384, 384)` — only its shape drives tracing. -/
def dummyImageShape : Shape := [1, 3, 384, 384]

/-- Line 77: `dummy_input_ids = torch.ones(1, seq_len, dtype=torch.long)`. -/
def dummyInputIdsShape : Shape := [1, seq_len]

/-- Line 78: `dummy_attention_mask = torch.ones(1, seq_len, dtype=torch.long)`. -/
def dummyAttentionMaskShape : Shape := [1, seq_len]

/-- Line 79: `dummy_encoder_states = torch.randn(1, 577, 768)`. -/
def dummyEncoderStatesShape : Shape := [1, 577, 768]

/-- A dynamic-axes declaration as passed to `torch.onnx.export`: for each tensor
name, the list of (axis index, symbolic name) pairs declared dynamic. -/
abbrev DynamicAxes := List (String × List (Nat × String))

/-- One `torch.onnx.export` invocation: target path, the shapes of the example
arguments used for tracing, the declared input/output names, the dynamic-axes
declaration and the opset version. -/
structure OnnxExportCall where
  path : String
  args : List Shape
  input_names : List String
  output_names : List String
  dynamic_axes : DynamicAxes
  opset_version : Nat

/-- Lines 49-57: the vision-encoder export call. -/
def visionExportCall : OnnxExportCall :=
  { path := "models/blip_vision_encoder.onnx"
    args := [dummyImageShape]
    input_names := ["pixel_values"]
    output_names := ["image_features"]
    dynamic_axes := [("pixel_values", [(0, "batch")]), ("image_features", [(0, "batch")])]
    opset_version := 17 }

/-- Lines 81-94: the text-decoder export call. -/
def textExportCall : OnnxExportCall :=
  { path := "models/blip_text_decoder.onnx"
    args := [dummyInputIdsShape, dummyAttentionMaskShape, dummyEncoderStatesShape]
    input_names := ["input_ids", "attention_mask", "encoder_hidden_states"]
    output_names := ["logits"]
    dynamic_axes :=
      [("input_ids", [(0, "batch"), (1, "seq_len")]),
       ("attention_mask", [(0, "batch"), (1, "seq_len")]),
       ("encoder_hidden_states", [(0, "batch")]),
       ("logits", [(0, "batch"), (1, "seq_len")])]
    opset_version := 17 }

/-- Axis indices declared dynamic for tensor `n` in export call `c`
(empty when `n` carries no dynamic-axes entry). -/
def axesOf (c : OnnxExportCall) (n : String) : List Nat :=
  ((c.dynamic_axes.lookup n).getD []).map Prod.fst

/-- Tensor names carrying a dynamic-axes entry in export call `c`. -/
def dynNames (c : OnnxExportCall) : List String :=
  c.dynamic_axes.map Prod.fst

/-- Output record of the native vision sub-module (`model.vision_model`): besides
`last_hidden_state` it may carry a pooled embedding and attention maps. -/
structure VisionModelOutput (T : Type) where
  last_hidden_state : T
  pooler_output : Option T
  attentions : Option (List T)

/-- Lines 43-44, `VisionEncoderWrapper.forward`:
`return self.encoder(pixel_values).last_hidden_state`. The wrapped sub-module
is any function producing a `VisionModelOutput`; the wrapper keeps only the
`last_hidden_state` field. -/
def visionWrapperForward {T : Type} (encoder : T → VisionModelOutput T)
    (pixel_values : T) : T :=
  (encoder pixel_values).last_hidden_state

/-- Output record of the native text-decoder sub-module (`model.text_decoder`):
besides `logits` it may carry an incremental generation cache
(`past_key_values`) and attention maps. -/
structure DecoderOutput (T C : Type) where
  logits : T
  past_key_values : Option C
  attentions : Option (List T)

/-- Lines 68-73, `TextDecoderWrapper.forward`: calls the wrapped decoder on
`input_ids`, `attention_mask`, `encoder_hidden_states` with no incremental
cache handed in (the fourth argument, the `past_key_values` keyword the call
omits, is `none`) and keeps only the `logits` field. -/
def textWrapperForward {T C : Type}
    (decoder : T → T → T → Option C → DecoderOutput T C)
    (input_ids attention_mask encoder_hidden_states : T) : T :=
  (decoder input_ids attention_mask encoder_hidden_states none).logits

/-- A torch module with stochastic layers (dropout): in training mode a forward
pass consumes a source of randomness (dropout masks); in inference mode the
forward pass is a fixed function of the input alone. -/
structure StochModule (I O R : Type) where
  training : Bool
  trainForward : I → R → O
  inferForward : I → O

/-- Line 33 `model.eval()`: switch the module (and every owned sub-module) to
inference mode, disabling the stochastic layers. -/
def StochModule.eval {I O R : Type} (m : StochModule I O R) : StochModule I O R :=
  { m with training := false }

/-- One forward pass of the module under ambient randomness `r`: stochastic
behaviour is exercised only in training mode. -/
def StochModule.run {I O R : Type} (m : StochModule I O R) (x : I) (r : R) : O :=
  if m.training then m.trainForward x r else m.inferForward x

/-- Lines 32-33: the loader resolves `MODEL_ID` to a pretrained module and
immediately switches it to inference mode, before any tracing. -/
def loadModel {I O R : Type} (pretrained : StochModule I O R) : StochModule I O R :=
  StochModule.eval pretrained

/-- Tracing (`torch.onnx.export`) records the operations of one forward pass of
the module on the example input `x` under ambient randomness `r`. -/
def traceModule {I O R : Type} (m : StochModule I O R) (x : I) (r : R) : O :=
  StochModule.run m x r

/-- Contents of the output directory: an association list from file name to
file bytes. -/
abbrev FS := List (String × String)

/-- Look up the contents of file `n`. -/
def lookupFile : FS → String → Option String
  | [], _ => none
  | p :: t, n => if p.1 = n then some p.2 else lookupFile t n

/-- Remove every entry named `n`. -/
def removeFile : FS → String → FS
  | [], _ => []
  | p :: t, n => if p.1 = n then removeFile t n else p :: removeFile t n

/-- Write file `n` with contents `c`, overwriting any existing entry in place. -/
def setFile (fs : FS) (n c : String) : FS :=
  (n, c) :: removeFile fs n

/-- Write a list of files in order. -/
def writeAll : FS → List (String × String) → FS
  | fs, [] => fs
  | fs, p :: t => writeAll (setFile fs p.1 p.2) t

/-- Line 28 `OUTPUT_DIR.mkdir(exist_ok=True)`: if the directory is absent
(`none`) create it empty, otherwise keep its contents untouched. -/
def mkdirExistOk (d : Option FS) : FS :=
  d.getD []

/-- The five numbered checkpoints of the script. -/
inductive Step
  | load
  | visionExport
  | textExport
  | tokenizer
  | report
deriving DecidableEq

/-- Outside-world outcomes one run of the script encounters: whether the model
identifier resolves (line 32), whether each trace succeeds, the serialized
graph bytes, the optional external-weights companion emitted with each graph,
the files `save_pretrained` writes (line 99), and the contents at the
tokenizer's original `vocab_file` path (`none` when that source is
unavailable). -/
structure Env where
  loadOk : Bool
  visionOk : Bool
  visionBytes : String
  visionCompanion : Option String
  textOk : Bool
  textBytes : String
  textCompanion : Option String
  savedFiles : List (String × String)
  vocabSource : Option String

/-- Optionally write the external-weights companion file. -/
def writeCompanion (fs : FS) (n : String) (c : Option String) : FS :=
  match c with
  | some bytes => setFile fs n bytes
  | none => fs

/-- Step 1, lines 30-33: resolve and load the model; fatal on resolution
failure, writes no file. -/
def loadStep (env : Env) (fs : FS) : Except String FS :=
  if env.loadOk then Except.ok fs else Except.error "model resolution failed"

/-- Step 2, lines 36-58: trace and export the vision encoder; on success
writes the graph file and, when emitted, its companion; fatal on trace
failure, writing nothing for the stage. -/
def visionExportStep (env : Env) (fs : FS) : Except String FS :=
  if env.visionOk then
    Except.ok (writeCompanion (setFile fs "blip_vision_encoder.onnx" env.visionBytes)
      "blip_vision_encoder.onnx.data" env.visionCompanion)
  else Except.error "vision trace failed"

/-- Step 3, lines 61-95: trace and export the text decoder; same shape as the
vision export step. -/
def textExportStep (env : Env) (fs : FS) : Except String FS :=
  if env.textOk then
    Except.ok (writeCompanion (setFile fs "blip_text_decoder.onnx" env.textBytes)
      "blip_text_decoder.onnx.data" env.textCompanion)
  else Except.error "text trace failed"

/-- Line 99 `processor.tokenizer.save_pretrained(str(OUTPUT_DIR))`. -/
def savePretrained (env : Env) (fs : FS) : FS :=
  writeAll fs env.savedFiles

/-- Step 4, lines 98-108: save the tokenizer files; if `vocab.txt` is then
absent, copy it from the tokenizer's original `vocab_file` path; `shutil.copy`
raises (fatal) when that source is unavailable. -/
def tokenizerStep (env : Env) (fs : FS) : Except String FS :=
  let fs1 := savePretrained env fs
  if (lookupFile fs1 "vocab.txt").isSome then Except.ok fs1
  else
    match env.vocabSource with
    | some c => Except.ok (setFile fs1 "vocab.txt" c)
    | none => Except.error "vocab copy source unavailable"

/-- Lines 111-114: the report enumerates the files now present in the output
directory (their printed sizes and ordering are incidental observability and
are not modelled). -/
def reportListing (fs : FS) : List String :=
  fs.map Prod.fst

/-- Step 5: the report writes nothing and always succeeds. -/
def reportStep (fs : FS) : Except String FS :=
  Except.ok fs

/-- Run labelled fallible steps in order over the directory state. Returns the
labels of the steps that completed, the resulting state, and — when a step
raised — that step's label and error; nothing after a raising step runs. -/
def runSteps : List (Step × (FS → Except String FS)) → FS →
    List Step × FS × Option (Step × String)
  | [], fs => ([], fs, none)
  | (l, f) :: rest, fs =>
    match f fs with
    | Except.error e => ([], fs, some (l, e))
    | Except.ok fs1 =>
      let r := runSteps rest fs1
      (l :: r.1, r.2.1, r.2.2)

/-- The textual order of the five checkpoints in the script. -/
def stepOrder : List Step :=
  [Step.load, Step.visionExport, Step.textExport, Step.tokenizer, Step.report]

/-- The script's five steps in textual order, each closed over the run's
environment. -/
def pipelineSteps (env : Env) : List (Step × (FS → Except String FS)) :=
  [(Step.load, loadStep env), (Step.visionExport, visionExportStep env),
   (Step.textExport, textExportStep env), (Step.tokenizer, tokenizerStep env),
   (Step.report, reportStep)]

/-- Result of one run: the completed steps, the output directory afterwards
(`none` would mean it does not exist), and the uncaught error, if any, tagged
with the step that raised it. -/
structure PipeResult where
  log : List Step
  dir : Option FS
  err : Option (Step × String)

/-- One whole run of the script: line 28 creates the output directory (keeping
any existing contents) before step 1, then the five steps run in textual
order, stopping at the first uncaught exception. -/
def runPipeline (env : Env) (initDir : Option FS) : PipeResult :=
  let r := runSteps (pipelineSteps env) (mkdirExistOk initDir)
  { log := r.1, dir := some r.2.1, err := r.2.2 }

/-- Names of every file a run may create or overwrite. -/
def writtenNames (env : Env) : List String :=
  ["blip_vision_encoder.onnx", "blip_vision_encoder.onnx.data",
   "blip_text_decoder.onnx", "blip_text_decoder.onnx.data", "vocab.txt"]
    ++ env.savedFiles.map Prod.fst

end ExportModel

namespace ExportModel

/-- C1: the synthetic trace inputs have exactly the prescribed shapes: the vision
export traces one image tensor of shape (1, 3, 384, 384), and the decoder
export traces token ids of shape (1, 10), an attention mask of the same shape
and encoder hidden states of shape (1, 577, 768). -/
theorem c1_synthetic_input_shapes :
    visionExportCall.args = [[1, 3, 384, 384]] ∧
    textExportCall.args = [[1, 10], [1, 10], [1, 577, 768]] ∧
    dummyAttentionMaskShape = dummyInputIdsShape := by
  refine ⟨rfl, ?_, rfl⟩
  simp [textExportCall, dummyInputIdsShape, dummyAttentionMaskShape,
    dummyEncoderStatesShape, seq_len]

/-- C2: for every pixel-tensor input the vision wrapper's forward returns
exactly the wrapped sub-module's `last_hidden_state`; the auxiliary outputs
(pooled embedding, attentions) never influence the result — two sub-modules
agreeing on `last_hidden_state` give identical wrapper outputs. -/
theorem c2_vision_wrapper_last_hidden_state {T : Type}
    (encoder : T → VisionModelOutput T) (pixel_values : T) :
    visionWrapperForward encoder pixel_values =
      (encoder pixel_values).last_hidden_state ∧
    ∀ encoder' : T → VisionModelOutput T,
      (encoder pixel_values).last_hidden_state =
        (encoder' pixel_values).last_hidden_state →
      visionWrapperForward encoder pixel_values =
        visionWrapperForward encoder' pixel_values := by
  exact ⟨rfl, fun _ h => h⟩

/-- Witness for C2 at a concrete instantiation: two sub-modules over `Nat`
with the same `last_hidden_state` but different auxiliary outputs. -/
theorem c2_vision_wrapper_last_hidden_state_witness :
    visionWrapperForward (fun x => ⟨x + 1, some 0, none⟩) 5 =
      ((fun x => (⟨x + 1, some 0, none⟩ : VisionModelOutput Nat)) 5).last_hidden_state ∧
    visionWrapperForward (fun x => ⟨x + 1, some 0, none⟩) 5 =
      visionWrapperForward (fun x => (⟨x + 1, none, some []⟩ : VisionModelOutput Nat)) 5 := by
  refine ⟨(c2_vision_wrapper_last_hidden_state _ 5).1, ?_⟩
  exact (c2_vision_wrapper_last_hidden_state (fun x => ⟨x + 1, some 0, none⟩) 5).2
    (fun x => ⟨x + 1, none, some []⟩) rfl

/-- C3: for every input triple the text-decoder wrapper's forward returns
exactly the `logits` field of the wrapped decoder invoked with no incoming
incremental cache (`none`), and the cache or attentions the decoder emits
never influence the result — two decoders agreeing on `logits` at cache `none`
give identical wrapper outputs; the wrapper is a pure function of the three
inputs, so each invocation is stateless. -/
theorem c3_text_wrapper_logits_stateless {T C : Type}
    (decoder : T → T → T → Option C → DecoderOutput T C)
    (input_ids attention_mask encoder_hidden_states : T) :
    textWrapperForward decoder input_ids attention_mask encoder_hidden_states =
      (decoder input_ids attention_mask encoder_hidden_states none).logits ∧
    ∀ decoder' : T → T → T → Option C → DecoderOutput T C,
      (decoder input_ids attention_mask encoder_hidden_states none).logits =
        (decoder' input_ids attention_mask encoder_hidden_states none).logits →
      textWrapperForward decoder input_ids attention_mask encoder_hidden_states =
        textWrapperForward decoder' input_ids attention_mask encoder_hidden_states := by
  exact ⟨rfl, fun _ h => h⟩

/-- Witness for C3 at a concrete instantiation: two decoders over `Nat` with
the same logits at cache `none` but different emitted caches. -/
theorem c3_text_wrapper_logits_stateless_witness :
    textWrapperForward (fun i a e _ => ⟨i + a + e, some 7, none⟩) 1 2 3 =
      ((fun (i a e : Nat) (_ : Option Nat) =>
        (⟨i + a + e, some 7, none⟩ : DecoderOutput Nat Nat)) 1 2 3 none).logits ∧
    textWrapperForward (fun i a e _ => ⟨i + a + e, some 7, none⟩) 1 2 3 =
      textWrapperForward (fun (i a e : Nat) (_ : Option Nat) =>
        (⟨i + a + e, none, none⟩ : DecoderOutput Nat Nat)) 1 2 3 := by
  refine ⟨(c3_text_wrapper_logits_stateless _ 1 2 3).1, ?_⟩
  exact (c3_text_wrapper_logits_stateless (fun i a e _ => ⟨i + a + e, some 7, none⟩) 1 2 3).2
    (fun i a e _ => ⟨i + a + e, none, none⟩) rfl

/-- C4: the text-decoder export declares dynamic exactly axes 0 and 1 on
`input_ids` and `attention_mask`, exactly axis 0 on `encoder_hidden_states`,
and exactly axes 0 and 1 on the `logits` output; no other tensor carries a
dynamic-axes entry, so every remaining dimension is frozen at trace time. -/
theorem c4_text_decoder_dynamic_axes :
    axesOf textExportCall "input_ids" = [0, 1] ∧
    axesOf textExportCall "attention_mask" = [0, 1] ∧
    axesOf textExportCall "encoder_hidden_states" = [0] ∧
    axesOf textExportCall "logits" = [0, 1] ∧
    dynNames textExportCall =
      ["input_ids", "attention_mask", "encoder_hidden_states", "logits"] := by
  refine ⟨rfl, rfl, rfl, rfl, rfl⟩

/-- C5: the vision-encoder export declares dynamic exactly the batch axis
(axis 0) of the input `pixel_values` and of the output `image_features`, and
no other tensor or axis, so the spatial resolution and channel count are
frozen in the exported graph. -/
theorem c5_vision_encoder_dynamic_axes :
    axesOf visionExportCall "pixel_values" = [0] ∧
    axesOf visionExportCall "image_features" = [0] ∧
    dynNames visionExportCall = ["pixel_values", "image_features"] := by
  refine ⟨rfl, rfl, rfl⟩

/-- Looking up a different name is unaffected by removing `n`. -/
theorem lookupFile_removeFile_ne (fs : FS) (n m : String) (h : m ≠ n) :
    lookupFile (removeFile fs n) m = lookupFile fs m := by
  induction fs with
  | nil => rfl
  | cons p t ih =>
    by_cases hp : p.1 = n
    · have hpm : p.1 ≠ m := by
        rw [hp]
        exact fun hnm => h hnm.symm
      simp [removeFile, lookupFile, hp, hpm, Ne.symm h, ih]
    · simp [removeFile, lookupFile, hp, ih]

/-- Writing a file makes its contents visible under its name. -/
theorem lookupFile_setFile_self (fs : FS) (n c : String) :
    lookupFile (setFile fs n c) n = some c := by
  simp [setFile, lookupFile]

/-- Writing a file leaves every other name's contents unchanged. -/
theorem lookupFile_setFile_ne (fs : FS) (n c m : String) (h : m ≠ n) :
    lookupFile (setFile fs n c) m = lookupFile fs m := by
  have hnm : n ≠ m := fun e => h e.symm
  simp [setFile, lookupFile, hnm, lookupFile_removeFile_ne fs n m h]

/-- Writing a file never makes an existing file disappear. -/
theorem lookupFile_setFile_isSome (fs : FS) (n c m : String)
    (h : (lookupFile fs m).isSome) : (lookupFile (setFile fs n c) m).isSome := by
  by_cases hm : m = n
  · subst hm
    simp [lookupFile_setFile_self]
  · rw [lookupFile_setFile_ne fs n c m hm]
    exact h

/-- Writing a batch of files leaves names outside the batch unchanged. -/
theorem lookupFile_writeAll_ne (l : List (String × String)) (fs : FS) (m : String)
    (h : m ∉ l.map Prod.fst) :
    lookupFile (writeAll fs l) m = lookupFile fs m := by
  induction l generalizing fs with
  | nil => rfl
  | cons p t ih =>
    simp only [List.map_cons, List.mem_cons] at h
    push_neg at h
    rw [writeAll, ih (setFile fs p.1 p.2) h.2, lookupFile_setFile_ne fs p.1 p.2 m h.1]

/-- Writing a batch of files never makes an existing file disappear. -/
theorem lookupFile_writeAll_isSome (l : List (String × String)) (fs : FS) (m : String)
    (h : (lookupFile fs m).isSome) : (lookupFile (writeAll fs l) m).isSome := by
  induction l generalizing fs with
  | nil => exact h
  | cons p t ih => exact ih (setFile fs p.1 p.2) (lookupFile_setFile_isSome fs p.1 p.2 m h)

/-- A companion write (if any) never makes an existing file disappear. -/
theorem lookupFile_writeCompanion_isSome (fs : FS) (nm m : String) (c : Option String)
    (h : (lookupFile fs m).isSome) : (lookupFile (writeCompanion fs nm c) m).isSome := by
  cases c with
  | none => exact h
  | some b => exact lookupFile_setFile_isSome fs nm b m h

/-- A companion write (if any) leaves other names' contents unchanged. -/
theorem lookupFile_writeCompanion_ne (fs : FS) (nm m : String) (c : Option String)
    (h : m ≠ nm) : lookupFile (writeCompanion fs nm c) m = lookupFile fs m := by
  cases c with
  | none => rfl
  | some b => exact lookupFile_setFile_ne fs nm b m h

/-- A present file's name occurs in the directory enumeration. -/
theorem lookupFile_isSome_mem (fs : FS) (m : String)
    (h : (lookupFile fs m).isSome) : m ∈ fs.map Prod.fst := by
  induction fs with
  | nil => simp [lookupFile] at h
  | cons p t ih =>
    by_cases hp : p.1 = m
    · simp [hp]
    · simp only [lookupFile, hp, if_false] at h
      simp [ih h]

/-- Any property each step preserves across a successful execution holds of
the state a step run leaves behind, whether or not every step completed. -/
theorem runSteps_preserve (P : FS → Prop)
    (steps : List (Step × (FS → Except String FS)))
    (h : ∀ s ∈ steps, ∀ fs fs1, P fs → s.2 fs = Except.ok fs1 → P fs1)
    (fs : FS) (hfs : P fs) : P (runSteps steps fs).2.1 := by
  induction steps generalizing fs with
  | nil => exact hfs
  | cons s rest ih =>
    obtain ⟨l, f⟩ := s
    cases hres : f fs with
    | error e =>
      simpa [runSteps, hres] using hfs
    | ok fs1 =>
      simp only [runSteps, hres]
      exact ih (fun s hs => h s (List.mem_cons_of_mem _ hs)) fs1
        (h ⟨l, f⟩ (List.mem_cons_self _ _) fs fs1 hfs hres)

/-- The completed steps form a prefix of the scheduled labels, and when a step
raised, the raising step is exactly the first label not completed. -/
theorem runSteps_log_front (steps : List (Step × (FS → Except String FS))) (fs : FS) :
    ∃ t, (runSteps steps fs).1 ++ t = steps.map Prod.fst ∧
      ∀ l e, (runSteps steps fs).2.2 = some (l, e) → t.head? = some l := by
  induction steps generalizing fs with
  | nil =>
    exact ⟨[], rfl, by simp [runSteps]⟩
  | cons s rest ih =>
    obtain ⟨l, f⟩ := s
    cases hres : f fs with
    | error e =>
      refine ⟨l :: rest.map Prod.fst, by simp [runSteps, hres], ?_⟩
      intro l' e' hsome
      simp only [runSteps, hres] at hsome
      have : l = l' := (Prod.mk.injEq _ _ _ _).mp (Option.some.inj hsome) |>.1
      simp [this]
    | ok fs1 =>
      obtain ⟨t, ht, hh⟩ := ih fs1
      refine ⟨t, ?_, ?_⟩
      · simp [runSteps, hres, ht]
      · intro l' e' hsome
        apply hh
        simpa [runSteps, hres] using hsome

/-- A run records no error exactly when it completed every scheduled step. -/
theorem runSteps_complete_iff (steps : List (Step × (FS → Except String FS))) (fs : FS) :
    (runSteps steps fs).2.2 = none ↔ (runSteps steps fs).1 = steps.map Prod.fst := by
  induction steps generalizing fs with
  | nil => simp [runSteps]
  | cons s rest ih =>
    obtain ⟨l, f⟩ := s
    cases hres : f fs with
    | error e => simp [runSteps, hres]
    | ok fs1 => simpa [runSteps, hres] using ih fs1

/-- C9: both graph exports target the same ONNX opset version, 17. -/
theorem c9_same_opset_version :
    visionExportCall.opset_version = 17 ∧
    textExportCall.opset_version = 17 ∧
    visionExportCall.opset_version = textExportCall.opset_version := by
  refine ⟨rfl, rfl, rfl⟩

/-- A successful load step leaves the directory untouched. -/
theorem loadStep_ok (env : Env) (fs fs1 : FS) (h : loadStep env fs = Except.ok fs1) :
    fs1 = fs := by
  by_cases hl : env.loadOk
  · simp [loadStep, hl] at h
    exact h.symm
  · simp [loadStep, hl] at h

/-- A successful vision export writes exactly the vision graph file and its
optional companion. -/
theorem visionExportStep_ok (env : Env) (fs fs1 : FS)
    (h : visionExportStep env fs = Except.ok fs1) :
    fs1 = writeCompanion (setFile fs "blip_vision_encoder.onnx" env.visionBytes)
      "blip_vision_encoder.onnx.data" env.visionCompanion := by
  by_cases hv : env.visionOk
  · simp [visionExportStep, hv] at h
    exact h.symm
  · simp [visionExportStep, hv] at h

/-- A successful text export writes exactly the decoder graph file and its
optional companion. -/
theorem textExportStep_ok (env : Env) (fs fs1 : FS)
    (h : textExportStep env fs = Except.ok fs1) :
    fs1 = writeCompanion (setFile fs "blip_text_decoder.onnx" env.textBytes)
      "blip_text_decoder.onnx.data" env.textCompanion := by
  by_cases hv : env.textOk
  · simp [textExportStep, hv] at h
    exact h.symm
  · simp [textExportStep, hv] at h

/-- A successful tokenizer step either found `vocab.txt` among the saved files
or copied it from the tokenizer's source. -/
theorem tokenizerStep_ok (env : Env) (fs fs1 : FS)
    (h : tokenizerStep env fs = Except.ok fs1) :
    ((lookupFile (savePretrained env fs) "vocab.txt").isSome ∧
        fs1 = savePretrained env fs) ∨
      ∃ c, env.vocabSource = some c ∧
        fs1 = setFile (savePretrained env fs) "vocab.txt" c := by
  by_cases hs : (lookupFile (savePretrained env fs) "vocab.txt").isSome
  · left
    simp [tokenizerStep, hs] at h
    exact ⟨hs, h.symm⟩
  · cases hv : env.vocabSource with
    | none => simp [tokenizerStep, hs, hv] at h
    | some c =>
      right
      simp [tokenizerStep, hs, hv] at h
      exact ⟨c, rfl, h.symm⟩

/-- Every pipeline step, when it succeeds, keeps a present file present. -/
theorem pipelineSteps_keep_isSome (env : Env) (n : String) :
    ∀ s ∈ pipelineSteps env, ∀ fs fs1, (lookupFile fs n).isSome →
      s.2 fs = Except.ok fs1 → (lookupFile fs1 n).isSome := by
  intro s hs fs fs1 hP hok
  simp only [pipelineSteps, List.mem_cons, List.not_mem_nil, or_false] at hs
  rcases hs with h | h | h | h | h
  · subst h
    rw [loadStep_ok env fs fs1 hok]
    exact hP
  · subst h
    rw [visionExportStep_ok env fs fs1 hok]
    exact lookupFile_writeCompanion_isSome _ _ _ _ (lookupFile_setFile_isSome fs _ _ n hP)
  · subst h
    rw [textExportStep_ok env fs fs1 hok]
    exact lookupFile_writeCompanion_isSome _ _ _ _ (lookupFile_setFile_isSome fs _ _ n hP)
  · subst h
    rcases tokenizerStep_ok env fs fs1 hok with ⟨_, he⟩ | ⟨c, _, he⟩
    · rw [he]
      exact lookupFile_writeAll_isSome _ fs n hP
    · rw [he]
      exact lookupFile_setFile_isSome _ _ _ n (lookupFile_writeAll_isSome _ fs n hP)
  · subst h
    simp only [reportStep, Except.ok.injEq] at hok
    rw [← hok]
    exact hP

/-- Every pipeline step, when it succeeds, leaves a file whose name the run
never writes with its exact contents. -/
theorem pipelineSteps_keep_untouched (env : Env) (n c : String)
    (hn : n ∉ writtenNames env) :
    ∀ s ∈ pipelineSteps env, ∀ fs fs1, lookupFile fs n = some c →
      s.2 fs = Except.ok fs1 → lookupFile fs1 n = some c := by
  simp only [writtenNames, List.mem_append, List.mem_cons, List.not_mem_nil, or_false] at hn
  push_neg at hn
  obtain ⟨⟨h1, h2, h3, h4, h5⟩, h6⟩ := hn
  intro s hs fs fs1 hP hok
  simp only [pipelineSteps, List.mem_cons, List.not_mem_nil, or_false] at hs
  rcases hs with h | h | h | h | h
  · subst h
    rw [loadStep_ok env fs fs1 hok]
    exact hP
  · subst h
    rw [visionExportStep_ok env fs fs1 hok, lookupFile_writeCompanion_ne _ _ _ _ h2,
      lookupFile_setFile_ne _ _ _ _ h1]
    exact hP
  · subst h
    rw [textExportStep_ok env fs fs1 hok, lookupFile_writeCompanion_ne _ _ _ _ h4,
      lookupFile_setFile_ne _ _ _ _ h3]
    exact hP
  · subst h
    rcases tokenizerStep_ok env fs fs1 hok with ⟨_, he⟩ | ⟨c', _, he⟩
    · rw [he]
      simpa [savePretrained, lookupFile_writeAll_ne env.savedFiles fs n h6] using hP
    · rw [he, lookupFile_setFile_ne _ _ _ _ h5]
      simpa [savePretrained, lookupFile_writeAll_ne env.savedFiles fs n h6] using hP
  · subst h
    simp only [reportStep, Except.ok.injEq] at hok
    rw [← hok]
    exact hP

/-- C6: a tokenizer step that returns leaves `vocab.txt` present in the output
directory: when `save_pretrained` did not produce it, the step copies it
explicitly from the tokenizer's original source path, and when that source is
also unavailable the step fails with an error rather than continuing without
the file. -/
theorem c6_vocab_fallback (env : Env) (fs : FS) :
    (∀ fs1, tokenizerStep env fs = Except.ok fs1 →
      (lookupFile fs1 "vocab.txt").isSome) ∧
    (∀ c, lookupFile (savePretrained env fs) "vocab.txt" = none →
      env.vocabSource = some c →
      tokenizerStep env fs = Except.ok (setFile (savePretrained env fs) "vocab.txt" c)) ∧
    (lookupFile (savePretrained env fs) "vocab.txt" = none →
      env.vocabSource = none →
      tokenizerStep env fs = Except.error "vocab copy source unavailable") := by
  refine ⟨?_, ?_, ?_⟩
  · intro fs1 hok
    rcases tokenizerStep_ok env fs fs1 hok with ⟨hs, he⟩ | ⟨c, _, he⟩
    · rw [he]
      exact hs
    · rw [he]
      simp [lookupFile_setFile_self]
  · intro c hnone hsome
    simp [tokenizerStep, hnone, hsome]
  · intro hnone hsome
    simp [tokenizerStep, hnone, hsome]

/-- Witness for C6 at concrete inputs: a tokenizer whose save emits only a
configuration file and whose raw vocabulary source is available gets
`vocab.txt` copied in; with the source unavailable the step errors. -/
theorem c6_vocab_fallback_witness :
    tokenizerStep ⟨true, true, "vb", none, true, "tb", none,
        [("tokenizer_config.json", "cfg")], some "tokens"⟩ [] =
      Except.ok (setFile (savePretrained ⟨true, true, "vb", none, true, "tb", none,
        [("tokenizer_config.json", "cfg")], some "tokens"⟩ []) "vocab.txt" "tokens") ∧
    (lookupFile (setFile (savePretrained ⟨true, true, "vb", none, true, "tb", none,
        [("tokenizer_config.json", "cfg")], some "tokens"⟩ []) "vocab.txt" "tokens")
      "vocab.txt").isSome ∧
    tokenizerStep ⟨true, true, "vb", none, true, "tb", none,
        [("tokenizer_config.json", "cfg")], none⟩ [] =
      Except.error "vocab copy source unavailable" := by
  obtain ⟨ha1, ha2, _⟩ := c6_vocab_fallback ⟨true, true, "vb", none, true, "tb", none,
    [("tokenizer_config.json", "cfg")], some "tokens"⟩ []
  refine ⟨ha2 "tokens" rfl rfl, ha1 _ (ha2 "tokens" rfl rfl), ?_⟩
  exact (c6_vocab_fallback ⟨true, true, "vb", none, true, "tb", none,
    [("tokenizer_config.json", "cfg")], none⟩ []).2.2 rfl rfl

/-- C7: the steps run strictly in the textual order load, vision export, text
export, tokenizer, report: the completed-step log of every run is a prefix of
that order, a failing step is exactly the first step not completed — no later
step runs — and its error is recorded, never swallowed; the run records no
error exactly when all five steps completed. -/
theorem c7_sequential_halting (env : Env) (initDir : Option FS) :
    (∃ t, (runPipeline env initDir).log ++ t = stepOrder ∧
      ∀ l e, (runPipeline env initDir).err = some (l, e) → t.head? = some l) ∧
    ((runPipeline env initDir).err = none ↔ (runPipeline env initDir).log = stepOrder) := by
  have hmap : (pipelineSteps env).map Prod.fst = stepOrder := rfl
  obtain ⟨t, ht, hh⟩ := runSteps_log_front (pipelineSteps env) (mkdirExistOk initDir)
  refine ⟨⟨t, ?_, hh⟩, ?_⟩
  · rw [← hmap]
    exact ht
  · rw [← hmap]
    exact runSteps_complete_iff (pipelineSteps env) (mkdirExistOk initDir)

/-- Witness for C7 at a concrete run whose text-decoder trace fails: the first
two steps complete, the failure is recorded against the text-export step, and
the run did not complete all five steps. -/
theorem c7_sequential_halting_witness :
    (runPipeline ⟨true, true, "vb", none, false, "tb", none, [], none⟩ none).log =
      [Step.load, Step.visionExport] ∧
    (runPipeline ⟨true, true, "vb", none, false, "tb", none, [], none⟩ none).err =
      some (Step.textExport, "text trace failed") ∧
    ¬ (runPipeline ⟨true, true, "vb", none, false, "tb", none, [], none⟩ none).log =
      stepOrder := by
  refine ⟨rfl, rfl, ?_⟩
  intro hlog
  have h := (c7_sequential_halting ⟨true, true, "vb", none, false, "tb", none, [], none⟩
    none).2.mpr hlog
  exact absurd h (by decide)

/-- C8: the loader switches the model to inference mode — the loaded module's
training flag is off — so a traced forward pass is independent of the ambient
randomness: two traces of the same module on the same input execute the same
deterministic function; and loading is the first step of every run that
completes any step at all, hence it precedes any tracing. -/
theorem c8_eval_mode_deterministic_tracing {I O R : Type} (pretrained : StochModule I O R) :
    (loadModel pretrained).training = false ∧
    (∀ x r₁ r₂, traceModule (loadModel pretrained) x r₁ =
      traceModule (loadModel pretrained) x r₂) ∧
    (∀ env initDir, (runPipeline env initDir).log ≠ [] →
      (runPipeline env initDir).log.head? = some Step.load) := by
  refine ⟨rfl, fun x r₁ r₂ => rfl, ?_⟩
  intro env initDir hne
  by_cases hl : env.loadOk
  · simp [runPipeline, pipelineSteps, runSteps, loadStep, hl]
  · exact absurd (by simp [runPipeline, pipelineSteps, runSteps, loadStep, hl]) hne

/-- Witness for C8 at a concrete stochastic module and a concrete all-success
run: the loaded module is out of training mode, two traces under different
randomness agree, and the run's first completed step is the load. -/
theorem c8_eval_mode_deterministic_tracing_witness :
    (loadModel (⟨true, fun x r => x + r, fun x => 2 * x⟩ :
      StochModule Nat Nat Nat)).training = false ∧
    traceModule (loadModel (⟨true, fun x r => x + r, fun x => 2 * x⟩ :
        StochModule Nat Nat Nat)) 3 0 =
      traceModule (loadModel (⟨true, fun x r => x + r, fun x => 2 * x⟩ :
        StochModule Nat Nat Nat)) 3 99 ∧
    (runPipeline ⟨true, true, "vb", none, true, "tb", none, [], some "w"⟩
      none).log.head? = some Step.load := by
  obtain ⟨h1, h2, h3⟩ := c8_eval_mode_deterministic_tracing
    (⟨true, fun x r => x + r, fun x => 2 * x⟩ : StochModule Nat Nat Nat)
  exact ⟨h1, h2 3 0 99,
    h3 ⟨true, true, "vb", none, true, "tb", none, [], some "w"⟩ none (by decide)⟩

/-- C10: the output directory is created before any step runs and exists after
every run, even one failing at model resolution; no step deletes a file, so a
file present before the run stays present, and one whose name the run never
writes keeps its exact contents and its name appears in the enumeration the
report prints over the final directory contents. -/
theorem c10_output_dir_frame (env : Env) (initDir : Option FS) (n c : String) :
    (∃ fs, (runPipeline env initDir).dir = some fs) ∧
    (∀ fs, (runPipeline env initDir).dir = some fs →
      ((lookupFile (mkdirExistOk initDir) n).isSome → (lookupFile fs n).isSome) ∧
      (lookupFile (mkdirExistOk initDir) n = some c → n ∉ writtenNames env →
        lookupFile fs n = some c ∧ n ∈ reportListing fs)) := by
  refine ⟨⟨(runSteps (pipelineSteps env) (mkdirExistOk initDir)).2.1, rfl⟩, ?_⟩
  intro fs hfs
  have hfseq : (runSteps (pipelineSteps env) (mkdirExistOk initDir)).2.1 = fs :=
    Option.some.inj hfs
  subst hfseq
  constructor
  · intro hsome
    exact runSteps_preserve (fun g => (lookupFile g n).isSome) (pipelineSteps env)
      (pipelineSteps_keep_isSome env n) (mkdirExistOk initDir) hsome
  · intro heq hnw
    have hpres := runSteps_preserve (fun g => lookupFile g n = some c) (pipelineSteps env)
      (pipelineSteps_keep_untouched env n c hnw) (mkdirExistOk initDir) heq
    refine ⟨hpres, ?_⟩
    have hsome : (lookupFile (runSteps (pipelineSteps env)
        (mkdirExistOk initDir)).2.1 n).isSome := by
      rw [hpres]
      rfl
    simpa [reportListing] using lookupFile_isSome_mem _ n hsome

/-- Witness for C10 at a concrete run over a directory holding a leftover file
`old.bin` that the run never writes: it survives with its contents intact and
appears in the final enumeration. -/
theorem c10_output_dir_frame_witness :
    lookupFile (runSteps (pipelineSteps ⟨true, true, "vb", some "vbd", true, "tb", none,
        [("tokenizer_config.json", "cfg")], some "tokens"⟩)
      (mkdirExistOk (some [("old.bin", "data")]))).2.1 "old.bin" = some "data" ∧
    "old.bin" ∈ reportListing (runSteps (pipelineSteps ⟨true, true, "vb", some "vbd",
        true, "tb", none, [("tokenizer_config.json", "cfg")], some "tokens"⟩)
      (mkdirExistOk (some [("old.bin", "data")]))).2.1 := by
  exact ((c10_output_dir_frame ⟨true, true, "vb", some "vbd", true, "tb", none,
      [("tokenizer_config.json", "cfg")], some "tokens"⟩ (some [("old.bin", "data")])
      "old.bin" "data").2 _ rfl).2 rfl (by decide)

end ExportModel
